import Mathlib

/-!
Verification development for the SkyrmeGaussianProcess repository.

The definitions below are a shallow embedding of the program:

* `auto_column_splitter` embeds `DataManager.auto_column_splitter`
  (skygp/isotope_mass.py, lines 176-228);
* `read_in_data` embeds the table-construction tail of
  `DataManager.read_in_data` (lines 142-174), starting from the typed
  rows (Z, A, symb, mass_excess, mass_excess_err);
* `get_A_Z` embeds the regex-based parser `get_A_Z` (lines 232-259),
  including a character-level model of `re.findall` for the pattern
  used there;
* `get_mass` embeds `get_mass` (lines 261-279);
* `get_data` embeds `SimulationReader.get_data`
  (skygp/data_manager.py, lines 121-175), with pandas frames modelled
  as lists of rows carrying their original integer index labels, so
  that the index-aligned arithmetic of pandas is reproduced.

Python floats are idealised as rationals; none of the statements below
exercise division by zero or float rounding.  Python dicts are modelled
as association lists in insertion order with overwrite-on-repeat
(`dinsert`), matching CPython semantics.
-/

/-! ## Column splitter (isotope_mass.py lines 176-228) -/

/-- Python `line[c]` for an in-bounds access; out-of-range reads default
to a space (all uses below are guarded by `c < minLineLength`). -/
def charAt (l : List Char) (c : Nat) : Char := l.getD c ' '

/-- The `is_col_splitter` flag of the source loop after scanning every
line: no line has non-space characters at both `c-1` and `c`. -/
def isColSplitterAt (content : List (List Char)) (c : Nat) : Bool :=
  content.all (fun line => !(decide (charAt line c ≠ ' ') && decide (charAt line (c-1) ≠ ' ')))

/-- The `is_all_space` flag of the source loop after scanning every
line: character `c` is a space in every line. -/
def isAllSpaceAt (content : List (List Char)) (c : Nat) : Bool :=
  content.all (fun line => decide (charAt line c = ' '))

/-- `min([len(line) for line in content])`; the `content = []` case is
handled separately by `auto_column_splitter` (Python `min` raises). -/
def minLineLength (content : List (List Char)) : Nat :=
  match content.map List.length with
  | [] => 0
  | x :: xs => xs.foldl min x

/-- The recorded boundary offsets: `c` in `range(1, min_line_length)`
with `is_col_splitter and not is_all_space`, in ascending order. -/
def findSplitPos (content : List (List Char)) : List Nat :=
  (List.range (minLineLength content)).filter
    (fun c => decide (1 ≤ c) && isColSplitterAt content c && !(isAllSpaceAt content c))

/-- Python slice `line[a:b]` for `0 ≤ a ≤ b`. -/
def pySlice (l : List Char) (a b : Nat) : List Char := (l.take b).drop a

/-- The fields cut from one (already newline-stripped) line by the
boundary list: slices between consecutive boundaries, and a final
`line[last:]` slice running to the end of the line. -/
def sliceFields (line : List Char) : Nat → List Nat → List (List Char)
  | a, [] => [line.drop a]
  | a, b :: bs => pySlice line a b :: sliceFields line b bs

/-- Python `line.strip('\n')`: removes the maximal runs of newline
characters at both ends. -/
def pyStripNL (l : List Char) : List Char :=
  ((l.dropWhile (· = '\n')).reverse.dropWhile (· = '\n')).reverse

/-- A line with its trailing newline run removed (the normal form of a
well-formed table line). -/
def removeTrailingNL (l : List Char) : List Char :=
  (l.reverse.dropWhile (· = '\n')).reverse

/-- Failure modes of `auto_column_splitter`: `emptyContent` is the
`ValueError` of `min([])` (line 203); `nameErrorC1` is the `NameError`
on line 225, where the final field reads the loop variable `c1` that
was never assigned because `split_pos` stayed `[0]` and the zip on
line 223 was empty. -/
inductive SplitErr
  | emptyContent
  | nameErrorC1
deriving DecidableEq

/-- Embedding of `DataManager.auto_column_splitter`. -/
def auto_column_splitter (content : List (List Char)) :
    Except SplitErr (List (List (List Char))) :=
  if content.isEmpty then .error .emptyContent
  else
    let ps := findSplitPos content
    if ps.isEmpty then .error .nameErrorC1
    else .ok (content.map (fun line => sliceFields (pyStripNL line) 0 ps))

/-! ## Python dict model -/

/-- Python `d[k] = v`: overwrite in place when the key exists, else
append, preserving insertion order. -/
def dinsert [DecidableEq α] (d : List (α × β)) (k : α) (v : β) : List (α × β) :=
  if d.any (fun p => decide (p.1 = k)) then
    d.map (fun p => if p.1 = k then (k, v) else p)
  else d ++ [(k, v)]

/-- Python `d.get(k)` / `d[k]` lookup. -/
def dget? [DecidableEq α] (d : List (α × β)) (k : α) : Option β :=
  (d.find? (fun p => decide (p.1 = k))).map (·.2)

/-- `dict(zip(ks, vs))` over a list of pairs. -/
def foldDict [DecidableEq α] (ps : List (α × β)) : List (α × β) :=
  ps.foldl (fun d p => dinsert d p.1 p.2) []

/-! ## Isotope table construction (isotope_mass.py lines 142-174) -/

/-- One typed row of the AME table, after the column projection and
casts of lines 142-152: `Z`, `A`, `symb`, `mass_excess` (keV),
`mass_excess_err` (keV). -/
structure AmeRow where
  Z : Nat
  A : Nat
  symb : String
  massExcess : ℚ
  massExcessErr : ℚ
deriving DecidableEq

/-- Failure modes of the table construction: `keyError z` is the Python
`KeyError` raised on line 159 when `Z_to_symb` lacks one of the four
remapped charge numbers; `dataCorruption` is the `ValueError` of
`set_index(..., verify_integrity=True)` on line 168 for a duplicate
`(A, Z)` index. -/
inductive BuildErr
  | keyError (z : Nat)
  | dataCorruption
deriving DecidableEq

/-- The state `read_in_data` leaves behind: the `(A, Z)`-indexed frame
and the two lookup dicts. -/
structure IsotopeTable where
  df : List AmeRow
  Z_to_symb : List (Nat × String)
  symb_to_Z : List (String × Nat)
deriving DecidableEq

/-- `new_symb` of line 158: the 2016 IUPAC names. -/
def newSymb : List (Nat × String) := [(113, "Nh"), (115, "Mc"), (117, "Ts"), (118, "Og")]

/-- The dict comprehension of line 159,
`{Z_to_symb[k]: new_symb[k] for k in new_symb.keys()}`; a missing key
raises `KeyError`. -/
def mkOldToNewGo (ztos : List (Nat × String)) :
    List (Nat × String) → List (String × String) → Except BuildErr (List (String × String))
  | [], acc => .ok acc
  | kv :: rest, acc =>
    match dget? ztos kv.1 with
    | none => .error (.keyError kv.1)
    | some old => mkOldToNewGo ztos rest (dinsert acc old kv.2)

/-- See `mkOldToNewGo`. -/
def mkOldToNew (ztos : List (Nat × String)) : Except BuildErr (List (String × String)) :=
  mkOldToNewGo ztos newSymb []

/-- `df.replace({'symb': old_to_new_symb})` on one row. -/
def replaceSymb (o2n : List (String × String)) (r : AmeRow) : AmeRow :=
  { r with symb := (dget? o2n r.symb).getD r.symb }

/-- Embedding of the tail of `DataManager.read_in_data` (lines
154-174), from the typed rows: build `Z_to_symb` (line 155), the
historical-name remap (lines 158-162), `symb_to_Z` (line 165), and the
`(A, Z)` uniqueness check of `set_index(..., verify_integrity=True)`
(line 168). -/
def read_in_data (rows : List AmeRow) : Except BuildErr IsotopeTable :=
  let ztos0 := foldDict (rows.map (fun r => (r.Z, r.symb)))
  match mkOldToNew ztos0 with
  | .error e => .error e
  | .ok o2n =>
    let df1 := rows.map (replaceSymb o2n)
    let ztos1 := newSymb.foldl (fun d kv => dinsert d kv.1 kv.2) ztos0
    let stoz := ztos1.foldl (fun d kv => dinsert d kv.2 kv.1) []
    if (df1.map (fun r => (r.A, r.Z))).Nodup then .ok ⟨df1, ztos1, stoz⟩
    else .error .dataCorruption

/-! ## Isotope resolver (isotope_mass.py lines 232-279) -/

/-- ASCII uppercase letter, `[A-Z]`. -/
def isUp (c : Char) : Bool := decide ('A' ≤ c) && decide (c ≤ 'Z')

/-- ASCII lowercase letter, `[a-z]`. -/
def isLo (c : Char) : Bool := decide ('a' ≤ c) && decide (c ≤ 'z')

/-- `[A-Za-z]`. -/
def isLetterAZ (c : Char) : Bool := isUp c || isLo c

/-- `[0-9]`. -/
def isDig (c : Char) : Bool := decide ('0' ≤ c) && decide (c ≤ '9')

/-- First regex alternative `[A-Za-z][a-z]?\d{1,3}` anchored at the
head of `s`: the optional lowercase letter is tried greedily first and
given up when no digit follows, as the backtracking engine does.
Returns the match and the remaining suffix. -/
def matchAlt1 (s : List Char) : Option (List Char × List Char) :=
  match s with
  | [] => none
  | c0 :: rest =>
    if isLetterAZ c0 then
      match rest with
      | c1 :: rest2 =>
        if isLo c1 then
          let ds := (rest2.takeWhile isDig).take 3
          if ds.isEmpty then
            let ds2 := (rest.takeWhile isDig).take 3
            if ds2.isEmpty then none
            else some (c0 :: ds2, rest.drop ds2.length)
          else some (c0 :: c1 :: ds, rest2.drop ds.length)
        else
          let ds2 := (rest.takeWhile isDig).take 3
          if ds2.isEmpty then none
          else some (c0 :: ds2, rest.drop ds2.length)
      | [] => none
    else none

/-- Greedy backtracking for `\d{1,3}[A-Za-z][a-z]?` anchored at the
head of `s`: try consuming `k` digits (largest first); the letter and
optional lowercase letter follow. -/
def alt2Try (s : List Char) : Nat → Option (List Char × List Char)
  | 0 => none
  | k + 1 =>
    match s.drop (k + 1) with
    | c :: rest =>
      if isLetterAZ c then
        match rest with
        | c2 :: rest2 =>
          if isLo c2 then some (s.take (k + 1) ++ [c, c2], rest2)
          else some (s.take (k + 1) ++ [c], rest)
        | [] => some (s.take (k + 1) ++ [c], [])
      else alt2Try s k
    | [] => alt2Try s k

/-- Second regex alternative `\d{1,3}[A-Za-z][a-z]?` anchored at the
head of `s`. -/
def matchAlt2 (s : List Char) : Option (List Char × List Char) :=
  alt2Try s ((s.takeWhile isDig).take 3).length

/-- One anchored attempt of the full pattern
`([A-Za-z][a-z]?\d{1,3}|\d{1,3}[A-Za-z][a-z]?)`: the first alternative
is preferred, as in the `re` engine. -/
def matchAt (s : List Char) : Option (List Char × List Char) :=
  (matchAlt1 s).orElse (fun _ => matchAlt2 s)

/-- `re.findall` for the pattern above: scan left to right, emit
non-overlapping matches, resume after each match.  `fuel` bounds the
recursion; `s.length` is always enough since every step consumes at
least one character. -/
def reFindAll : Nat → List Char → List (List Char)
  | 0, _ => []
  | _ + 1, [] => []
  | fuel + 1, c :: rest =>
    match matchAt (c :: rest) with
    | some (m, r) => m :: reFindAll fuel r
    | none => reFindAll fuel rest

/-- `int(...)` on a digit string. -/
def digitsToNat (ds : List Char) : Nat :=
  ds.foldl (fun acc c => 10 * acc + (c.toNat - '0'.toNat)) 0

/-- Python `str.capitalize()`: first character uppercased, the rest
lowercased. -/
def pyCapitalize (l : List Char) : List Char :=
  match l with
  | [] => []
  | c :: cs => c.toUpper :: cs.map Char.toLower

/-- Failure modes of the resolver and of `get_mass`: `formatError` is
the `ValueError` of line 247 (match count differs from 1);
`unknownSymbol` the `ValueError` of line 255; `notFound` the
`ValueError` of line 274; `typeError` the Python `TypeError` raised on
line 271, where `A, Z = tuple` attempts to unpack the builtin type
object `tuple` instead of the argument. -/
inductive IsoErr
  | formatError (s : String)
  | unknownSymbol (s : String)
  | notFound (a z : Nat)
  | typeError
deriving DecidableEq

/-- The regex scan and token split of `get_A_Z` (lines 244-253),
everything before the `symb_to_Z` lookup: the single match is split
into its digit part (`A`) and its capitalized letter part. -/
def parseToken (s : String) : Except IsoErr (Nat × String) :=
  let ms := reFindAll s.length s.toList
  if ms.length ≠ 1 then .error (.formatError s)
  else
    let m := ms.headD []
    .ok (digitsToNat (m.filter isDig), String.mk (pyCapitalize (m.filter isLetterAZ)))

/-- Embedding of `get_A_Z` (lines 232-259); `stoz` is the module-level
`data_manager.symb_to_Z`. -/
def get_A_Z (stoz : List (String × Nat)) (s : String) : Except IsoErr (Nat × Nat) :=
  match parseToken s with
  | .error e => .error e
  | .ok (A, symb) =>
    match dget? stoz symb with
    | some Z => .ok (A, Z)
    | none => .error (.unknownSymbol symb)

/-- The two energy units a caller can request from `get_mass`. -/
inductive EnergyUnit
  | MeV
  | keV
deriving DecidableEq

/-- The argument forms `get_mass` dispatches on (line 268-271). -/
inductive MassArg
  | str (s : String)
  | pair (a z : Nat)
deriving DecidableEq

/-- `constants.u.to(units.MeV, units.mass_energy())`: the atomic mass
unit energy equivalent in MeV (astropy / CODATA value 931.4940954). -/
def amuMeV : ℚ := 9314940954 / 10000000

/-- Embedding of `get_mass` (lines 261-279) against a built table.
The string branch resolves via `get_A_Z`; the tuple branch raises
`TypeError` (line 271 unpacks the builtin `tuple` type object).  The
row lookup models `(A, Z) not in df.index` and `df.loc[(A, Z)]`.  The
sum `A * amu + mass_excess` is an astropy Quantity addition whose
result carries the left operand's unit (MeV), so the stored keV mass
excess is divided by 1000; the `unit` parameter is never read by the
source body, which is reproduced faithfully here. -/
def get_mass (t : IsotopeTable) (argv : MassArg) (_unit : EnergyUnit) : Except IsoErr ℚ :=
  match argv with
  | .pair _ _ => .error .typeError
  | .str s =>
    match get_A_Z t.symb_to_Z s with
    | .error e => .error e
    | .ok (A, Z) =>
      match t.df.find? (fun r => decide (r.A = A) && decide (r.Z = Z)) with
      | none => .error (.notFound A Z)
      | some r => .ok (A * amuMeV + r.massExcess / 1000)

/-! ## Run aggregator (data_manager.py lines 121-175) -/

/-- The characters of the placeholder `"%03d"`. -/
def pat03 : List Char := ['%', '0', '3', 'd']

/-- Python `string.count('%03d')`.  The pattern `%03d` has no
self-overlap, so counting every starting position equals CPython's
non-overlapping count. -/
def count03 : List Char → Nat
  | [] => 0
  | c :: rest => (if pat03.isPrefixOf (c :: rest) then 1 else 0) + count03 rest

/-- The validation of lines 123-125:
`not (string.count('%') and string.count('%03d'))` raises, i.e. a
template is rejected iff one of the two counts is zero. -/
def templateBad (t : String) : Bool :=
  decide (t.toList.count '%' = 0) || decide (count03 t.toList = 0)

/-- Everything `get_data` can raise.  `badTemplate` is the
`ValueError` of line 125; `formatTypeError` the `TypeError` CPython
raises when `subdir_fmt % code` (line 136-137) has a conversion count
other than one; `pairInconsistent` the `ValueError` of line 150;
`nameErrorSkyrme` the `NameError` of line 157, where the message
`'Mismatch ene_cm for parameter code %03d' % skyrme` reads the
undefined name `skyrme`, so the intended `ValueError` is never built. -/
inductive GDErr
  | badTemplate (t : String)
  | formatTypeError
  | pairInconsistent
  | nameErrorSkyrme
deriving DecidableEq

/-- The template loop of lines 123-125, numerator first. -/
def checkTemplates (fmtN fmtD : String) : Except GDErr Unit :=
  if templateBad fmtN then .error (.badTemplate fmtN)
  else if templateBad fmtD then .error (.badTemplate fmtD)
  else .ok ()

/-- `'%03d' % n`: the decimal digits zero-padded to width 3. -/
def pad3 (n : Nat) : List Char :=
  let s := Nat.toDigits 10 n
  List.replicate (3 - s.length) '0' ++ s

/-- Substitute `sub` for the first occurrence of `%03d`. -/
def replaceFirst03 : List Char → List Char → List Char
  | [], _ => []
  | c :: rest, sub =>
    if pat03.isPrefixOf (c :: rest) then sub ++ rest.drop 3
    else c :: replaceFirst03 rest sub

/-- CPython `%` substitution for the templates used here: succeeds
exactly when the template holds a single conversion, which is `%03d`;
any other conversion count raises `TypeError` (`%%` escapes are not
used by the callers and not modelled). -/
def pyFormat03 (fmt : String) (code : Nat) : Except GDErr String :=
  if count03 fmt.toList = 1 ∧ fmt.toList.count '%' = 1 then
    .ok (String.mk (replaceFirst03 fmt.toList (pad3 code)))
  else .error .formatTypeError

/-- One row of a filtered run file: the pandas integer index label it
kept from `read_csv`'s RangeIndex, plus `ene_cm` and `single_ratio`. -/
structure SRRow where
  idx : Nat
  ene : ℚ
  sr : ℚ
deriving DecidableEq

/-- The row filter of lines 140-144 applied to one raw file (a list of
`(ene_cm, single_ratio)` pairs): boolean-mask filtering keeps the
original index labels. -/
def keepRow (lo hi : ℚ) (p : Nat × ℚ × ℚ) : Option SRRow :=
  if lo ≤ p.2.1 ∧ p.2.1 ≤ hi then some ⟨p.1, p.2.1, p.2.2⟩ else none

/-- See `keepRow`: the filtered frame for one run file. -/
def readFiltered (file : List (ℚ × ℚ)) (lo hi : ℚ) : List SRRow :=
  (List.enumFrom 0 file).filterMap (keepRow lo hi)

/-- The `ene_cm` column as a Python list (lines 148-149). -/
def eneList (rows : List SRRow) : List ℚ := rows.map (·.ene)

/-- Line 162, `df_dr['double_ratio'] /= df_sr[denom]['single_ratio']`:
pandas divides aligned on index labels and reindexes the result to the
numerator frame, so a numerator label missing from the denominator
yields NaN (modelled `none`). -/
def doubleRatio (numer denom : List SRRow) : List (Option ℚ) :=
  numer.map (fun r =>
    match denom.find? (fun d => decide (d.idx = r.idx)) with
    | some d => some (r.sr / d.sr)
    | none => none)

/-- The per-code loop of lines 134-165: format both subdir paths, read
and filter both files, check the paired `ene_cm` equality (line 149),
check against the canonical grid `header_train` (lines 152-157, where
a mismatch evaluates the undefined name `skyrme`), and append the
double-ratio row. -/
def gdLoop (files : String → List (ℚ × ℚ)) (fmtN fmtD : String) (lo hi : ℚ) :
    List Nat → List ℚ → List (List (Option ℚ)) →
    Except GDErr (List ℚ × List (List (Option ℚ)))
  | [], header, acc => .ok (header, acc.reverse)
  | code :: rest, header, acc =>
    match pyFormat03 fmtN code with
    | .error e => .error e
    | .ok numerStr =>
      match pyFormat03 fmtD code with
      | .error e => .error e
      | .ok denomStr =>
        let dfN := readFiltered (files numerStr) lo hi
        let dfD := readFiltered (files denomStr) lo hi
        let ene := eneList dfN
        if ene ≠ eneList dfD then .error .pairInconsistent
        else if header = [] then
          gdLoop files fmtN fmtD lo hi rest ene (doubleRatio dfN dfD :: acc)
        else if header = ene then
          gdLoop files fmtN fmtD lo hi rest header (doubleRatio dfN dfD :: acc)
        else .error .nameErrorSkyrme

/-- Embedding of `SimulationReader.get_data`.  `params` is the parsed
`param.dat` (code column plus the remaining numeric columns); `files`
maps a formatted subdir name to the parsed `NP-EK-A16Z6.DAT` rows of
that run.  The result pairs `x_train` (the parameter table reindexed
to `param_codes`, a missing code giving a NaN row, line 169) with
`y_train` (the double-ratio matrix row-keyed by code, lines 171-173). -/
def get_data (params : List (Nat × List ℚ)) (files : String → List (ℚ × ℚ))
    (fmtN fmtD : String) (codes : List Nat) (lo hi : ℚ) :
    Except GDErr (List (Nat × Option (List ℚ)) × List (Nat × List (Option ℚ))) :=
  match checkTemplates fmtN fmtD with
  | .error e => .error e
  | .ok _ =>
    match gdLoop files fmtN fmtD lo hi codes [] [] with
    | .error e => .error e
    | .ok (_, yrows) =>
      let xtrain := codes.map (fun c => (c, (params.find? (fun p => decide (p.1 = c))).map (·.2)))
      .ok (xtrain, codes.zip yrows)

/-! ## Concrete example inputs used by the witnesses and counterexamples -/

/-- A miniature built table holding calcium-40 and calcium-48 with the
AME2016 mass excesses in keV. -/
def caTable : IsotopeTable :=
  ⟨[⟨20, 40, "Ca", -348463/10, 1/10⟩, ⟨20, 48, "Ca", -440375/10, 2/10⟩],
   [(20, "Ca")], [("Ca", 20)]⟩

/-- Run files for one code whose numerator file has an extra row below
the energy window: after filtering, the numerator keeps index labels
`[1, 2]` while the denominator keeps `[0, 1]`, although the `ene_cm`
values agree. -/
def c1files : String → List (ℚ × ℚ) := fun s =>
  if s = "n001" then [(5, 9), (10, 2), (20, 4)]
  else if s = "d001" then [(10, 1), (20, 2)]
  else []

/-- Run files for two codes whose post-filter grids differ: code 1
yields energies `[10, 20]`, code 2 yields `[10, 30]`. -/
def c2files : String → List (ℚ × ℚ) := fun s =>
  if s = "n001" then [(10, 2), (20, 4)]
  else if s = "d001" then [(10, 1), (20, 2)]
  else if s = "n002" then [(10, 2), (30, 4)]
  else if s = "d002" then [(10, 1), (30, 2)]
  else []

/-- A line batch with one space-aligned boundary (at offset 3). -/
def c3content : List (List Char) := [['a', 'b', ' ', 'c', 'd'], ['e', 'f', ' ', 'g', 'h']]

/-- A line batch in which no offset qualifies as a boundary. -/
def c10content : List (List Char) := [['a', 'b'], ['c', 'd']]

/-- A source table that maps the two distinct charge numbers 1 and 2
to the same symbol `X`, together with the four rows the historical
remap requires.  All `(A, Z)` keys are distinct. -/
def c8rows : List AmeRow :=
  [⟨113, 283, "Uut", 0, 0⟩, ⟨115, 288, "Uup", 0, 0⟩, ⟨117, 294, "Uus", 0, 0⟩,
   ⟨118, 295, "Uuo", 0, 0⟩, ⟨1, 1, "X", 0, 0⟩, ⟨2, 4, "X", 0, 0⟩]

/-- The table `read_in_data` constructs from `c8rows`: the build
succeeds and `symb_to_Z` silently keeps only the last charge number
for `X`. -/
def c8table : IsotopeTable :=
  ⟨[⟨113, 283, "Nh", 0, 0⟩, ⟨115, 288, "Mc", 0, 0⟩, ⟨117, 294, "Ts", 0, 0⟩,
    ⟨118, 295, "Og", 0, 0⟩, ⟨1, 1, "X", 0, 0⟩, ⟨2, 4, "X", 0, 0⟩],
   [(113, "Nh"), (115, "Mc"), (117, "Ts"), (118, "Og"), (1, "X"), (2, "X")],
   [("Nh", 113), ("Mc", 115), ("Ts", 117), ("Og", 118), ("X", 2)]⟩

/-- A well-formed source whose `Z → symbol` assignment is injective. -/
def c8wrows : List AmeRow :=
  [⟨113, 283, "Uut", 0, 0⟩, ⟨115, 288, "Uup", 0, 0⟩, ⟨117, 294, "Uus", 0, 0⟩,
   ⟨118, 295, "Uuo", 0, 0⟩, ⟨1, 1, "H", 0, 0⟩]

/-- The table built from `c8wrows`. -/
def c8wtable : IsotopeTable :=
  ⟨[⟨113, 283, "Nh", 0, 0⟩, ⟨115, 288, "Mc", 0, 0⟩, ⟨117, 294, "Ts", 0, 0⟩,
    ⟨118, 295, "Og", 0, 0⟩, ⟨1, 1, "H", 0, 0⟩],
   [(113, "Nh"), (115, "Mc"), (117, "Ts"), (118, "Og"), (1, "H")],
   [("Nh", 113), ("Mc", 115), ("Ts", 117), ("Og", 118), ("H", 1)]⟩

/-- A duplicate-free source covering the four remapped charge
numbers. -/
def c9rows : List AmeRow :=
  [⟨113, 283, "Uut", 0, 0⟩, ⟨115, 288, "Uup", 0, 0⟩, ⟨117, 294, "Uus", 0, 0⟩,
   ⟨118, 295, "Uuo", 0, 0⟩]

/-! ## General lemmas about the splitter -/

/-- Two adjacent slices tile the list: `line[a:b] + line[b:] = line[a:]`
for `a ≤ b`. -/
theorem slice_join (l : List Char) {a b : Nat} (h : a ≤ b) :
    pySlice l a b ++ l.drop b = l.drop a := by
  unfold pySlice
  by_cases hb : b ≤ l.length
  · conv_rhs => rw [← List.take_append_drop b l]
    rw [List.drop_append_eq_append_drop, List.length_take]
    have : a - min b l.length = 0 := by omega
    rw [this, List.drop_zero]
  · rw [List.take_of_length_le (by omega), List.drop_of_length_le (i := b) (by omega),
      List.append_nil]

/-- The boundary list always produces one more field than it has
boundaries. -/
theorem sliceFields_length (line : List Char) :
    ∀ (bs : List Nat) (a : Nat), (sliceFields line a bs).length = bs.length + 1 := by
  intro bs
  induction bs with
  | nil => intro a; simp [sliceFields]
  | cons b bs ih => intro a; simp [sliceFields, ih]

/-- Concatenating the fields reproduces the sliced line from the first
offset on, provided offsets ascend. -/
theorem sliceFields_flatten (line : List Char) :
    ∀ (bs : List Nat) (a : Nat), List.Pairwise (· ≤ ·) (a :: bs) →
      (sliceFields line a bs).flatten = line.drop a := by
  intro bs
  induction bs with
  | nil => intro a _; simp [sliceFields]
  | cons b bs ih =>
    intro a h
    rcases List.pairwise_cons.mp h with ⟨hab, h'⟩
    have := ih b h'
    simp only [sliceFields, List.flatten_cons, this]
    exact slice_join line (hab b (by simp))

/-- Recorded boundary offsets are strictly ascending (they are a filter
of `range`). -/
theorem findSplitPos_pairwise (content : List (List Char)) :
    (findSplitPos content).Pairwise (· < ·) :=
  List.Pairwise.sublist (List.filter_sublist _) (List.pairwise_lt_range _)

/-- For a line that does not begin with a newline, Python
`strip('\n')` only removes the trailing newline run. -/
theorem pyStripNL_eq_removeTrailingNL (l : List Char) (h : l.head? ≠ some '\n') :
    pyStripNL l = removeTrailingNL l := by
  unfold pyStripNL removeTrailingNL
  congr 2
  match l with
  | [] => rfl
  | c :: cs =>
    rw [List.dropWhile_cons]
    simp only [List.head?_cons, ne_eq, Option.some.injEq] at h
    simp [h]

/-- Zipping a mapped list with the original pairs each element with
its image. -/
theorem zip_map_self {α : Type} {β : Type} (f : α → β) (l : List α) :
    (l.map f).zip l = l.map (fun x => (f x, x)) := by
  induction l with
  | nil => rfl
  | cons a l ih => simp [ih]

/-- Claim C3: for every non-empty batch of equal-length lines in which
at least one offset is classified as a space-aligned boundary,
`auto_column_splitter` returns one row per line, all rows share the
same field count, and concatenating a row's fields in order reproduces
that row's characters with the trailing newline run removed. -/
theorem C3_splitter_shape_and_content (content : List (List Char))
    (hne : content ≠ [])
    (hlen : ∀ l₁ ∈ content, ∀ l₂ ∈ content, l₁.length = l₂.length)
    (hnl : ∀ l ∈ content, l.head? ≠ some '\n')
    (hbound : findSplitPos content ≠ []) :
    ∃ rows, auto_column_splitter content = .ok rows ∧
      rows.length = content.length ∧
      (∀ r ∈ rows, r.length = (findSplitPos content).length + 1) ∧
      (∀ p ∈ rows.zip content, p.1.flatten = removeTrailingNL p.2) := by
  have h1 : content.isEmpty = false := by
    cases content with
    | nil => exact absurd rfl hne
    | cons a l => rfl
  have h2 : (findSplitPos content).isEmpty = false := by
    cases hfe : findSplitPos content with
    | nil => exact absurd hfe hbound
    | cons a l => rfl
  have hpair : List.Pairwise (· ≤ ·) (0 :: findSplitPos content) := by
    rw [List.pairwise_cons]
    exact ⟨fun x _ => Nat.zero_le x,
      (findSplitPos_pairwise content).imp (fun h => Nat.le_of_lt h)⟩
  refine ⟨content.map (fun line => sliceFields (pyStripNL line) 0 (findSplitPos content)),
    ?_, ?_, ?_, ?_⟩
  · simp [auto_column_splitter, h1, h2]
  · exact List.length_map _ _
  · intro r hr
    rcases List.mem_map.mp hr with ⟨line, _, rfl⟩
    exact sliceFields_length _ _ _
  · intro p hp
    rw [zip_map_self] at hp
    rcases List.mem_map.mp hp with ⟨line, hline, rfl⟩
    have := sliceFields_flatten (pyStripNL line) (findSplitPos content) 0 hpair
    simp only [this, List.drop_zero]
    exact pyStripNL_eq_removeTrailingNL line (hnl line hline)

/-- Witness for C3 at a concrete two-line batch with one boundary. -/
theorem C3_witness :
    (c3content ≠ [] ∧ (∀ l₁ ∈ c3content, ∀ l₂ ∈ c3content, l₁.length = l₂.length) ∧
      (∀ l ∈ c3content, l.head? ≠ some '\n') ∧ findSplitPos c3content ≠ []) ∧
    (∃ rows, auto_column_splitter c3content = .ok rows ∧
      rows.length = c3content.length ∧
      (∀ r ∈ rows, r.length = (findSplitPos c3content).length + 1) ∧
      (∀ p ∈ rows.zip c3content, p.1.flatten = removeTrailingNL p.2)) :=
  ⟨⟨by decide, by decide, by decide, by decide⟩,
   C3_splitter_shape_and_content c3content (by decide) (by decide) (by decide) (by decide)⟩

/-- Claim C10: on a non-empty batch in which no offset qualifies as a
boundary, the splitter does not return single-field rows; it fails
with the `NameError` of the unassigned slice variable `c1`. -/
theorem C10_no_boundary_fails (content : List (List Char))
    (hne : content ≠ []) (hnb : findSplitPos content = []) :
    auto_column_splitter content = .error .nameErrorC1 := by
  have h1 : content.isEmpty = false := by
    cases content with
    | nil => exact absurd rfl hne
    | cons a l => rfl
  simp [auto_column_splitter, h1, hnb]

/-- Witness for C10 at a concrete batch with no splittable offset. -/
theorem C10_witness :
    (c10content ≠ [] ∧ findSplitPos c10content = []) ∧
    auto_column_splitter c10content = .error .nameErrorC1 :=
  ⟨⟨by decide, by decide⟩, C10_no_boundary_fails c10content (by decide) (by decide)⟩

/-! ## Lemmas about the template validation -/

/-- A string containing an occurrence of `%03d` contains a percent
character. -/
theorem count03_ne_zero_percent_mem : ∀ (s : List Char), count03 s ≠ 0 → '%' ∈ s := by
  intro s
  induction s with
  | nil => simp [count03]
  | cons c rest ih =>
    intro h
    by_cases hp : pat03.isPrefixOf (c :: rest)
    · rw [List.isPrefixOf_iff_prefix] at hp
      obtain ⟨t, ht⟩ := hp
      have hc : c = '%' := by
        rw [show pat03 ++ t = '%' :: (['0', '3', 'd'] ++ t) from rfl] at ht
        exact (List.cons.injEq _ _ _ _ ▸ ht).1.symm
      rw [hc]
      exact List.mem_cons_self _ _
    · have h' : count03 rest ≠ 0 := by
        simpa [count03, hp] using h
      exact List.mem_cons_of_mem _ (ih h')

/-- Claim C7 (amended): the validation raises iff a template contains
no occurrence of `%03d` at all; in particular a template with exactly
one placeholder passes, and so does a template with two or more. -/
theorem C7_template_check_iff (fmtN fmtD : String) :
    checkTemplates fmtN fmtD = .ok () ↔
      count03 fmtN.toList ≠ 0 ∧ count03 fmtD.toList ≠ 0 := by
  have key : ∀ t : String, templateBad t = false ↔ count03 t.toList ≠ 0 := by
    intro t
    unfold templateBad
    constructor
    · intro h
      simp only [Bool.or_eq_false_iff, decide_eq_false_iff_not] at h
      exact h.2
    · intro h
      simp only [Bool.or_eq_false_iff, decide_eq_false_iff_not]
      refine ⟨?_, h⟩
      intro hc
      exact absurd (count03_ne_zero_percent_mem _ h) (List.count_eq_zero.mp hc)
  constructor
  · intro h
    by_cases h1 : templateBad fmtN = true
    · simp [checkTemplates, h1] at h
    · by_cases h2 : templateBad fmtD = true
      · simp [checkTemplates, h1, h2] at h
      · exact ⟨(key fmtN).mp (Bool.not_eq_true _ ▸ h1),
          (key fmtD).mp (Bool.not_eq_true _ ▸ h2)⟩
  · intro h
    simp [checkTemplates, (key fmtN).mpr h.1, (key fmtD).mpr h.2]

/-- Counterexample for C7 as stated: a numerator template with two
`%03d` placeholders passes the validation (no error is raised before
file access), although the claim requires a `FormatError` for any
count other than one. -/
theorem C7_counterexample :
    count03 ("a%03db%03dc").toList = 2 ∧
    checkTemplates "a%03db%03dc" "x%03d" = .ok () :=
  ⟨by decide, rfl⟩

/-! ## Resolver and mass-query theorems -/

/-- Claim C6 (amended): the parser is case-insensitive on the first
letter of the symbol, but the second letter of a two-letter symbol
must be lowercase: `Ca48`, `ca48` and `48Ca` all resolve through the
symbol `Ca`, while `CA48` is tokenized as the one-letter symbol `A`
with mass number 48 and rejected as an unknown symbol. -/
theorem C6_parse_case_rules (stoz : List (String × Nat)) (z : Nat)
    (hCa : dget? stoz "Ca" = some z) (hA : dget? stoz "A" = none) :
    get_A_Z stoz "Ca48" = .ok (48, z) ∧ get_A_Z stoz "ca48" = .ok (48, z) ∧
    get_A_Z stoz "48Ca" = .ok (48, z) ∧
    get_A_Z stoz "CA48" = .error (.unknownSymbol "A") := by
  have p1 : parseToken "Ca48" = .ok (48, "Ca") := rfl
  have p2 : parseToken "ca48" = .ok (48, "Ca") := rfl
  have p3 : parseToken "48Ca" = .ok (48, "Ca") := rfl
  have p4 : parseToken "CA48" = .ok (48, "A") := rfl
  refine ⟨?_, ?_, ?_, ?_⟩
  · simp only [get_A_Z, p1, hCa]
  · simp only [get_A_Z, p2, hCa]
  · simp only [get_A_Z, p3, hCa]
  · simp only [get_A_Z, p4, hA]

/-- Witness for the amended C6 at a concrete symbol map. -/
theorem C6_witness :
    (dget? caTable.symb_to_Z "Ca" = some 20 ∧ dget? caTable.symb_to_Z "A" = none) ∧
    (get_A_Z caTable.symb_to_Z "Ca48" = .ok (48, 20) ∧
     get_A_Z caTable.symb_to_Z "ca48" = .ok (48, 20) ∧
     get_A_Z caTable.symb_to_Z "48Ca" = .ok (48, 20) ∧
     get_A_Z caTable.symb_to_Z "CA48" = .error (.unknownSymbol "A")) :=
  ⟨⟨rfl, rfl⟩, C6_parse_case_rules caTable.symb_to_Z 20 rfl rfl⟩

/-- Counterexample for C6 as stated: with `Ca` present in the table,
the all-uppercase casing `CA48` does not parse to `(48, 20)`; the
regex only admits a lowercase second letter, so the scan finds the
token `A48` and the lookup fails. -/
theorem C6_counterexample :
    get_A_Z caTable.symb_to_Z "CA48" = .error (.unknownSymbol "A") ∧
    get_A_Z caTable.symb_to_Z "CA48" ≠ .ok (48, 20) :=
  ⟨rfl, fun h => Except.noConfusion h⟩

/-- Claim C4: the tuple-argument branch of `get_mass` never reaches the
table: line 271 unpacks the builtin `tuple` type object, a `TypeError`,
while the equivalent string query succeeds.  The claim's expected
equality between the two forms therefore fails. -/
theorem C4_tuple_branch_raises :
    get_mass caTable (.pair 48 20) .MeV = .error .typeError ∧
    get_mass caTable (.str "ca48") .MeV
      = .ok ((48 : ℚ) * amuMeV + (-440375/10 : ℚ) / 1000) ∧
    get_mass caTable (.pair 48 20) .MeV ≠ get_mass caTable (.str "ca48") .MeV :=
  ⟨rfl, rfl, fun h => Except.noConfusion h⟩

/-- Claim C5: the `unit` parameter of `get_mass` is never read, so a
keV request returns the very value of the MeV request (the stored keV
mass excess is still converted to MeV before the addition), not a
value 1000 times larger. -/
theorem C5_unit_request_ignored :
    get_mass caTable (.str "ca40") .keV = get_mass caTable (.str "ca40") .MeV ∧
    get_mass caTable (.str "ca40") .MeV
      = .ok ((40 : ℚ) * amuMeV + (-348463/10 : ℚ) / 1000) ∧
    get_mass caTable (.str "ca40") .keV
      ≠ .ok (1000 * ((40 : ℚ) * amuMeV + (-348463/10 : ℚ) / 1000)) := by
  refine ⟨rfl, rfl, ?_⟩
  intro h
  rw [show get_mass caTable (.str "ca40") .keV
      = .ok ((40 : ℚ) * amuMeV + (-348463/10 : ℚ) / 1000) from rfl] at h
  injection h with h'
  rw [amuMeV] at h'
  norm_num at h'

/-! ## Run-aggregator theorems -/

/-- The index labels surviving the filter are a sublist of the file's
RangeIndex, hence strictly ascending and duplicate-free. -/
theorem readFiltered_idx_sublist (file : List (ℚ × ℚ)) (lo hi : ℚ) :
    ((readFiltered file lo hi).map SRRow.idx).Sublist (List.range file.length) := by
  have main : ∀ (f : List (ℚ × ℚ)) (n : Nat),
      (((List.enumFrom n f).filterMap (keepRow lo hi)).map SRRow.idx).Sublist
        (List.range' n f.length) := by
    intro f
    induction f with
    | nil => intro n; simp
    | cons e f ih =>
      intro n
      rw [List.enumFrom_cons, List.filterMap_cons, List.length_cons, List.range'_succ]
      cases hk : keepRow lo hi (n, e) with
      | none => exact (ih (n + 1)).cons _
      | some r =>
        have hr : r.idx = n := by
          unfold keepRow at hk
          split at hk
          · cases hk; rfl
          · cases hk
        rw [List.map_cons, hr]
        exact (ih (n + 1)).cons₂ _
  rw [readFiltered, List.range_eq_range']
  exact main file 0

/-- When two frames carry identical duplicate-free index sequences,
the index-aligned quotient coincides with the positional quotient. -/
theorem doubleRatio_positional : ∀ (n d : List SRRow),
    n.map SRRow.idx = d.map SRRow.idx → (d.map SRRow.idx).Nodup →
    doubleRatio n d = List.zipWith (fun a b => some (a.sr / b.sr)) n d := by
  intro n
  induction n with
  | nil =>
    intro d h _
    have hd : d = [] := List.map_eq_nil_iff.mp h.symm
    subst hd
    rfl
  | cons r n' ih =>
    intro d h hnd
    cases d with
    | nil => simp at h
    | cons s d' =>
      simp only [List.map_cons, List.cons.injEq] at h
      obtain ⟨hrs, htl⟩ := h
      rw [List.map_cons, List.nodup_cons] at hnd
      obtain ⟨hsni, hnd'⟩ := hnd
      show List.map _ (r :: n') = _
      rw [List.map_cons, List.zipWith_cons_cons]
      have hhead : ((s :: d').find? (fun dd => decide (dd.idx = r.idx))) = some s := by
        rw [List.find?_cons]
        simp [hrs]
      have htail : ∀ x ∈ n',
          ((s :: d').find? (fun dd => decide (dd.idx = x.idx)))
            = d'.find? (fun dd => decide (dd.idx = x.idx)) := by
        intro x hx
        have hxmem : x.idx ∈ d'.map SRRow.idx := htl ▸ List.mem_map_of_mem _ hx
        have hne : ¬ s.idx = x.idx := fun hc => hsni (hc ▸ hxmem)
        rw [List.find?_cons]
        simp [hne]
      rw [hhead]
      congr 1
      have : List.map (fun rr =>
          match (s :: d').find? (fun dd => decide (dd.idx = rr.idx)) with
          | some dd => some (rr.sr / dd.sr)
          | none => none) n'
          = List.map (fun rr =>
          match d'.find? (fun dd => decide (dd.idx = rr.idx)) with
          | some dd => some (rr.sr / dd.sr)
          | none => none) n' := by
        apply List.map_congr_left
        intro x hx
        rw [htail x hx]
      rw [this]
      exact ih d' htl hnd'

/-- Claim C1 (amended): whenever the numerator's and denominator's
post-filter frames carry identical original-row-index sequences (in
particular whenever matching energies sit at matching file positions),
the double-ratio row computed by `get_data` is the positional
elementwise quotient of the single ratios. -/
theorem C1_aligned_quotient (fileN fileD : List (ℚ × ℚ)) (lo hi : ℚ)
    (hidx : (readFiltered fileN lo hi).map SRRow.idx
      = (readFiltered fileD lo hi).map SRRow.idx) :
    doubleRatio (readFiltered fileN lo hi) (readFiltered fileD lo hi)
      = List.zipWith (fun a b => some (a.sr / b.sr))
          (readFiltered fileN lo hi) (readFiltered fileD lo hi) :=
  doubleRatio_positional _ _ hidx
    ((readFiltered_idx_sublist fileD lo hi).nodup (List.nodup_range _))

/-- Witness for the amended C1 at files whose filtered rows align. -/
theorem C1_witness :
    (readFiltered [((10 : ℚ), 2), (20, 4)] 10 20).map SRRow.idx
      = (readFiltered [((10 : ℚ), 1), (20, 2)] 10 20).map SRRow.idx ∧
    doubleRatio (readFiltered [((10 : ℚ), 2), (20, 4)] 10 20)
        (readFiltered [((10 : ℚ), 1), (20, 2)] 10 20)
      = List.zipWith (fun a b => some (a.sr / b.sr))
          (readFiltered [((10 : ℚ), 2), (20, 4)] 10 20)
          (readFiltered [((10 : ℚ), 1), (20, 2)] 10 20) :=
  ⟨by decide, C1_aligned_quotient _ _ 10 20 (by decide)⟩

/-- Counterexample for C1 as stated: for code 1 the two files pass the
paired energy-equality check after filtering (both grids are
`[10, 20]`), yet the numerator's filtered rows carry index labels
`[1, 2]` against the denominator's `[0, 1]`, so pandas divides
`single_ratio` values of unrelated positions: the output row is
`[2/2, NaN]`, not the positional quotient `[2/1, 4/2]`. -/
theorem C1_counterexample :
    get_data [(1, [0])] c1files "n%03d" "d%03d" [1] 10 20
      = .ok ([(1, some [0])], [(1, [some ((2 : ℚ) / 2), none])]) ∧
    [some ((2 : ℚ) / 2), (none : Option ℚ)] ≠ [some ((2 : ℚ) / 1), some ((4 : ℚ) / 2)] :=
  ⟨rfl, by norm_num⟩

/-- Claim C2: when a later code's post-filter grid differs from the
canonical grid, `get_data` aborts, but not with the intended
`ValueError` naming the code: line 157 formats the message with the
undefined name `skyrme`, so a bare `NameError` escapes instead. -/
theorem C2_mismatch_raises_nameerror :
    get_data [(1, [0]), (2, [1])] c2files "n%03d" "d%03d" [1, 2] 10 30
      = .error .nameErrorSkyrme :=
  rfl

/-! ## Lemmas about the dict model -/

/-- Looking up after a dict assignment: the assigned key returns the
new value, every other key is unaffected. -/
theorem dget_dinsert [DecidableEq α] (d : List (α × β)) (k k' : α) (v : β) :
    dget? (dinsert d k v) k' = if k' = k then some v else dget? d k' := by
  unfold dinsert dget?
  by_cases hany : d.any (fun p => decide (p.1 = k)) = true
  · rw [if_pos hany, List.find?_map]
    by_cases hk : k' = k
    · subst hk
      rw [if_pos rfl]
      have hpred : (fun p => decide (p.1 = k')) ∘ (fun p : α × β => if p.1 = k' then (k', v) else p)
          = fun p : α × β => decide (p.1 = k') := by
        funext p
        by_cases h : p.1 = k' <;> simp [h]
      rw [hpred]
      obtain ⟨p0, hp0⟩ := Option.isSome_iff_exists.mp
        (List.find?_isSome.mpr (List.any_eq_true.mp hany))
      rw [hp0]
      have hbeta := List.find?_some hp0
      simp only [decide_eq_true_eq] at hbeta
      simp [hbeta]
    · rw [if_neg hk]
      have hpred : (fun p => decide (p.1 = k')) ∘ (fun p : α × β => if p.1 = k then (k, v) else p)
          = fun p : α × β => decide (p.1 = k') := by
        funext p
        by_cases h : p.1 = k
        · simp only [Function.comp_apply, h, if_pos rfl]
          have h1 : decide (k = k') = false := decide_eq_false (fun hc => hk hc.symm)
          have h2 : decide (p.1 = k') = false := decide_eq_false (fun hc => hk (h ▸ hc).symm)
          simp [h1, h2]
        · simp [h]
      rw [hpred]
      cases hf : d.find? (fun p => decide (p.1 = k')) with
      | none => rfl
      | some p0 =>
        have hp01 := List.find?_some hf
        simp only [decide_eq_true_eq] at hp01
        have : p0.1 ≠ k := fun hc => hk (hp01 ▸ hc : k' = k)
        simp [this]
  · rw [if_neg hany, List.find?_append]
    by_cases hk : k' = k
    · subst hk
      have hnone : d.find? (fun p => decide (p.1 = k')) = none := by
        rw [List.find?_eq_none]
        intro x hx
        have := List.any_eq_false.mp (Bool.not_eq_true _ ▸ hany) x hx
        simpa using this
      rw [hnone, if_pos rfl]
      simp [List.find?_cons]
    · rw [if_neg hk]
      have hsing : ([(k, v)].find? (fun p => decide (p.1 = k'))) = none := by
        rw [List.find?_eq_none]
        intro x hx
        simp only [List.mem_singleton] at hx
        subst hx
        simpa using fun hc => hk hc.symm
      rw [hsing]
      cases d.find? (fun p => decide (p.1 = k')) <;> rfl

/-- Lookup in a dict built by successive assignments succeeds exactly
for the keys assigned (or already present in the accumulator). -/
theorem dget_foldl_isSome [DecidableEq α] (ps : List (α × β)) (k : α) :
    ∀ acc : List (α × β),
      (dget? (ps.foldl (fun d p => dinsert d p.1 p.2) acc) k).isSome
        = ((dget? acc k).isSome || ps.any (fun p => decide (p.1 = k))) := by
  induction ps with
  | nil => intro acc; simp
  | cons p ps ih =>
    intro acc
    rw [List.foldl_cons, ih, List.any_cons, dget_dinsert]
    by_cases hk : k = p.1
    · have : decide (p.1 = k) = true := decide_eq_true hk.symm
      simp [hk, this]
    · have : decide (p.1 = k) = false := decide_eq_false (fun hc => hk hc.symm)
      simp [hk, this]

/-- See `dget_foldl_isSome`, specialised to `foldDict`. -/
theorem dget_foldDict_isSome [DecidableEq α] (ps : List (α × β)) (k : α) :
    (dget? (foldDict ps) k).isSome = ps.any (fun p => decide (p.1 = k)) := by
  rw [foldDict, dget_foldl_isSome]
  rfl

/-- Lookup in the reversed dict `{v: k for k, v in d.items()}`: the
last pair carrying a value wins. -/
theorem dget_invert_eq_find [DecidableEq α] [DecidableEq β] (d : List (α × β)) (s : β) :
    dget? (d.foldl (fun acc kv => dinsert acc kv.2 kv.1) []) s
      = (d.reverse.find? (fun p => decide (p.2 = s))).map (·.1) := by
  induction d using List.reverseRecOn with
  | nil => rfl
  | append_singleton d kv ih =>
    rw [List.foldl_append, List.foldl_cons, List.foldl_nil, dget_dinsert,
      List.reverse_append]
    simp only [List.reverse_cons, List.reverse_nil, List.nil_append, List.singleton_append]
    rw [List.find?_cons]
    by_cases h : s = kv.2
    · subst h
      simp
    · have hd : decide (kv.2 = s) = false := decide_eq_false (fun hc => h hc.symm)
      rw [if_neg h, ih, hd]

/-! ## Table-construction theorems -/

/-- Any successfully built table relates its two lookup maps exactly
as line 165 does: `symb_to_Z` is the fold of reversed assignments over
`Z_to_symb`. -/
theorem read_in_data_symb_to_Z (rows : List AmeRow) (t : IsotopeTable)
    (h : read_in_data rows = .ok t) :
    t.symb_to_Z = t.Z_to_symb.foldl (fun d kv => dinsert d kv.2 kv.1) [] := by
  unfold read_in_data at h
  dsimp only [] at h
  cases hm : mkOldToNew (foldDict (rows.map (fun r => (r.Z, r.symb)))) with
  | error e =>
    rw [hm] at h
    cases h
  | ok o2n =>
    rw [hm] at h
    dsimp only [] at h
    by_cases hnd : ((rows.map (replaceSymb o2n)).map (fun r => (r.A, r.Z))).Nodup
    · rw [if_pos hnd] at h
      cases h
      rfl
    · rw [if_neg hnd] at h
      cases h

/-- Claim C8 (amended): no injectivity check exists at construction;
but whenever the built `Z → symbol` map assigns distinct symbols to
distinct charge numbers, the symbol map inverts it: looking the symbol
back up returns the original `Z`. -/
theorem C8_roundtrip_under_injectivity (rows : List AmeRow) (t : IsotopeTable)
    (hbuild : read_in_data rows = .ok t)
    (hinj : ∀ p ∈ t.Z_to_symb, ∀ q ∈ t.Z_to_symb, p.2 = q.2 → p.1 = q.1)
    (z : Nat) (s : String) (hz : dget? t.Z_to_symb z = some s) :
    dget? t.symb_to_Z s = some z := by
  rw [read_in_data_symb_to_Z rows t hbuild, dget_invert_eq_find]
  unfold dget? at hz
  cases hf : t.Z_to_symb.find? (fun p => decide (p.1 = z)) with
  | none =>
    rw [hf] at hz
    cases hz
  | some p =>
    rw [hf] at hz
    have hp1 := List.find?_some hf
    simp only [decide_eq_true_eq] at hp1
    have hp2 : p.2 = s := by
      simpa using hz
    have hpmem : p ∈ t.Z_to_symb := List.mem_of_find?_eq_some hf
    have hex : ∃ x, x ∈ t.Z_to_symb.reverse ∧ decide (x.2 = s) = true :=
      ⟨p, List.mem_reverse.mpr hpmem, decide_eq_true hp2⟩
    obtain ⟨q, hq⟩ := Option.isSome_iff_exists.mp (List.find?_isSome.mpr hex)
    rw [hq]
    have hqmem : q ∈ t.Z_to_symb := List.mem_reverse.mp (List.mem_of_find?_eq_some hq)
    have hq2 := List.find?_some hq
    simp only [decide_eq_true_eq] at hq2
    have hq1 : q.1 = p.1 := hinj q hqmem p hpmem (hq2.trans hp2.symm)
    simp [hq1, hp1]

/-- Witness for the amended C8: an injective five-element source whose
round-trip recovers `Z = 1` from symbol `H`. -/
theorem C8_witness :
    (read_in_data c8wrows = .ok c8wtable ∧
     (∀ p ∈ c8wtable.Z_to_symb, ∀ q ∈ c8wtable.Z_to_symb, p.2 = q.2 → p.1 = q.1) ∧
     dget? c8wtable.Z_to_symb 1 = some "H") ∧
    dget? c8wtable.symb_to_Z "H" = some 1 :=
  ⟨⟨rfl, by decide, rfl⟩,
   C8_roundtrip_under_injectivity c8wrows c8wtable rfl (by decide) 1 "H" rfl⟩

/-- Counterexample for C8 as stated: a source that maps the distinct
charge numbers 1 and 2 to the same symbol `X` is not rejected — the
build succeeds, `symb_to_Z` silently keeps the later charge number,
and the round-trip for `Z = 1` returns 2. -/
theorem C8_counterexample :
    read_in_data c8rows = .ok c8table ∧
    dget? c8table.Z_to_symb 1 = some "X" ∧
    dget? c8table.symb_to_Z "X" = some 2 ∧ (2 : Nat) ≠ 1 :=
  ⟨rfl, rfl, rfl, by decide⟩

/-- Claim C9 (amended): provided the source covers the four charge
numbers required by the historical-name remap (otherwise line 159
raises `KeyError` before any uniqueness check), construction fails
with the `DataCorruption` error exactly when two rows share an
`(A, Z)` key, and on a duplicate-free source it succeeds with the
`(A, Z)`-keyed record set intact — no row silently replaces
another. -/
theorem C9_duplicate_key_detection (rows : List AmeRow)
    (hz : ∀ kv ∈ newSymb, ∃ r ∈ rows, r.Z = kv.1) :
    (¬ (rows.map (fun r => (r.A, r.Z))).Nodup →
      read_in_data rows = .error .dataCorruption) ∧
    ((rows.map (fun r => (r.A, r.Z))).Nodup →
      ∃ t, read_in_data rows = .ok t ∧
        t.df.map (fun r => (r.A, r.Z)) = rows.map (fun r => (r.A, r.Z))) := by
  have hlook : ∀ kv ∈ newSymb,
      ∃ s, dget? (foldDict (rows.map (fun r => (r.Z, r.symb)))) kv.1 = some s := by
    intro kv hkv
    obtain ⟨r, hr, hrz⟩ := hz kv hkv
    have hany : (rows.map (fun r => (r.Z, r.symb))).any (fun p => decide (p.1 = kv.1)) = true :=
      List.any_eq_true.mpr ⟨(r.Z, r.symb), List.mem_map_of_mem _ hr, by simp [hrz]⟩
    have hs := dget_foldDict_isSome (rows.map (fun r => (r.Z, r.symb))) kv.1
    rw [hany] at hs
    exact Option.isSome_iff_exists.mp hs
  obtain ⟨s113, h113⟩ := hlook (113, "Nh") (by simp [newSymb])
  obtain ⟨s115, h115⟩ := hlook (115, "Mc") (by simp [newSymb])
  obtain ⟨s117, h117⟩ := hlook (117, "Ts") (by simp [newSymb])
  obtain ⟨s118, h118⟩ := hlook (118, "Og") (by simp [newSymb])
  have hok : mkOldToNew (foldDict (rows.map (fun r => (r.Z, r.symb))))
      = .ok (dinsert (dinsert (dinsert (dinsert [] s113 "Nh") s115 "Mc") s117 "Ts")
          s118 "Og") := by
    unfold mkOldToNew newSymb
    simp only [mkOldToNewGo, h113, h115, h117, h118]
  have hkeys : ∀ o2n' : List (String × String),
      ((rows.map (replaceSymb o2n')).map (fun r => (r.A, r.Z)))
        = rows.map (fun r => (r.A, r.Z)) := by
    intro o2n'
    rw [List.map_map]
    apply List.map_congr_left
    intro r _
    rfl
  constructor
  · intro hnd
    unfold read_in_data
    dsimp only []
    rw [hok]
    dsimp only []
    rw [if_neg (fun hc => hnd (hkeys _ ▸ hc))]
  · intro hnd
    have hbuild : read_in_data rows
        = .ok ⟨rows.map (replaceSymb (dinsert (dinsert (dinsert (dinsert [] s113 "Nh")
              s115 "Mc") s117 "Ts") s118 "Og")),
            newSymb.foldl (fun d kv => dinsert d kv.1 kv.2)
              (foldDict (rows.map (fun r => (r.Z, r.symb)))),
            (newSymb.foldl (fun d kv => dinsert d kv.1 kv.2)
              (foldDict (rows.map (fun r => (r.Z, r.symb))))).foldl
              (fun d kv => dinsert d kv.2 kv.1) []⟩ := by
      unfold read_in_data
      dsimp only []
      rw [hok]
      dsimp only []
      rw [if_pos ((hkeys _).symm ▸ hnd)]
    exact ⟨_, hbuild, hkeys _⟩

/-- Witness for the amended C9 at a duplicate-free four-row source. -/
theorem C9_witness :
    ((∀ kv ∈ newSymb, ∃ r ∈ c9rows, r.Z = kv.1) ∧
      (c9rows.map (fun r => (r.A, r.Z))).Nodup) ∧
    (∃ t, read_in_data c9rows = .ok t ∧
      t.df.map (fun r => (r.A, r.Z)) = c9rows.map (fun r => (r.A, r.Z))) :=
  ⟨⟨by decide, by decide⟩, (C9_duplicate_key_detection c9rows (by decide)).2 (by decide)⟩

/-- Counterexample for C9 as stated: the duplicate-free single-row
source `[(Z = 1, A = 1, H)]` does not construct a table at all; the
remap of line 159 hits the missing key 113 and the build fails with a
`KeyError` (neither success nor `DataCorruption`). -/
theorem C9_counterexample :
    (([⟨1, 1, "H", 0, 0⟩] : List AmeRow).map (fun r => (r.A, r.Z))).Nodup ∧
    read_in_data [⟨1, 1, "H", 0, 0⟩] = .error (.keyError 113) ∧
    read_in_data [⟨1, 1, "H", 0, 0⟩] ≠ .error .dataCorruption :=
  ⟨by decide, rfl, fun h => by cases h⟩
